import Mathlib

/-!
# SyncDoc access-control and version-history engine: a shallow embedding

This file embeds the document access-control, share-link, and version-chain
logic of the SyncDoc backend (the `Document` and `Version` mongoose models and
the `/api/documents` route handlers) as executable Lean definitions, and proves
properties of them.

Modelling conventions:
* Mongo ObjectIds are modelled as `String` (the code only ever compares their
  `toString()` images); document ids are `Nat`.
* A mongoose collection is a `List` of records; `findOne` with a descending
  sort on `versionNumber` is the maximum-numbered entry.
* JS string truthiness (`s ? _ : _`, `a || b`) is modelled by emptiness tests.
* `Date` values are `Nat` timestamps; `new Date() > d` is `d < now`.
* The random token (a fresh uuidv4 with dashes removed, truncated to 16
  characters) is modelled by passing the generated string as an argument.
* `shareSettings` is `Option ShareSettings`: the route code guards with
  `if (!document.shareSettings)` and revokes by assigning `undefined`.
-/

namespace SyncDoc

/-- Permission ranks from `documentSchema.methods.hasAccess`:
`const permissions = { 'read': 1, 'write': 2, 'admin': 3 }`, looked up with
`permissions[p] || 0`, so any other string (including `comment`) ranks 0. -/
def permLevel (p : String) : Nat :=
  if p = "read" then 1 else if p = "write" then 2 else if p = "admin" then 3 else 0

/-- An entry of `document.collaborators`. -/
structure Collaborator where
  user : String
  permission : String
deriving DecidableEq

/-- One capability-scoped share link: `{ token, url }`. -/
structure PermLink where
  token : String
  url : String
deriving DecidableEq

/-- `shareSettings.permissionLinks`: at most one link per capability level. -/
structure PermissionLinks where
  read : Option PermLink
  comment : Option PermLink
  write : Option PermLink
deriving DecidableEq

def emptyLinks : PermissionLinks :=
  { read := none, comment := none, write := none }

/-- The `shareSettings` subdocument as used by the share routes. -/
structure ShareSettings where
  isPublic : Bool
  allowComments : Bool
  allowDownload : Bool
  defaultPermission : String
  permissionLinks : PermissionLinks
  expiresAt : Option Nat
deriving DecidableEq

/-- The `Document` model fields used by the access, share and version logic. -/
structure Document where
  id : Nat
  title : String
  content : String
  ownerId : String
  collaborators : List Collaborator
  isShared : Bool
  shareSettings : Option ShareSettings
  shareLink : Option String
  tags : List String
  folder : String
  status : String
  wordCount : Nat
  characterCount : Nat
  lastEditedBy : String
deriving DecidableEq

/-- The `Version` model fields used by the version-chain logic. -/
structure Version where
  documentId : Nat
  content : String
  title : String
  authorId : String
  authorName : String
  changes : String
  versionNumber : Nat
  isAutoSave : Bool
  wordCount : Nat
  characterCount : Nat
deriving DecidableEq

/-! ## Word/character counting (`pre('save')` hooks)

The hooks compute
`const textContent = this.content.replace(/<[^>]*>/g, '').trim();`
`this.wordCount = textContent ? textContent.split(/\s+/).length : 0;`
`this.characterCount = textContent.length;`
-/

/-- The character class `\s` of the JS regexes used for trimming/splitting
(restricted to the escapes that can appear in document content). -/
def jsWhitespace (c : Char) : Bool :=
  c = ' ' || c = '\t' || c = '\n' || c = '\r' || c = '\x0b' || c = '\x0c'

/-- Global replacement of the regex `<[^>]*>` by the empty string, as a
left-to-right scan. The second argument is `some buf` while the scan sits
inside a candidate tag: `buf` holds (reversed) the `'<'` and the following
non-`'>'` characters. A `'>'` closes the match and the buffer is discarded;
if the input ends first, the regex never matched anywhere inside the buffer
(no `'>'` remains), so the buffered characters are emitted verbatim. -/
def stripTagsGo : List Char → Option (List Char) → List Char
  | [], none => []
  | [], some buf => buf.reverse
  | c :: rest, none =>
    if c = '<' then stripTagsGo rest (some [c])
    else c :: stripTagsGo rest none
  | c :: rest, some buf =>
    if c = '>' then stripTagsGo rest none
    else stripTagsGo rest (some (c :: buf))

/-- `content.replace(regex of angle-bracket tags, '')` on a character list. -/
def stripTags (l : List Char) : List Char :=
  stripTagsGo l none

/-- JS `String.prototype.trim` on a character list. -/
def trimJs (l : List Char) : List Char :=
  ((l.dropWhile jsWhitespace).reverse.dropWhile jsWhitespace).reverse

/-- JS `split(/\s+/)` as a left-to-right scan: tokens separated by maximal
whitespace runs, with an empty leading (trailing) token when the string
starts (ends) with whitespace. `inWs` records being inside a whitespace run
(the current token already emitted); `acc` holds the current token reversed. -/
def splitWsGo : List Char → Bool → List Char → List (List Char)
  | [], inWs, acc => if inWs then [[]] else [acc.reverse]
  | c :: rest, inWs, acc =>
    if inWs then
      if jsWhitespace c then splitWsGo rest true []
      else splitWsGo rest false [c]
    else
      if jsWhitespace c then acc.reverse :: splitWsGo rest true []
      else splitWsGo rest false (c :: acc)

def jsSplitWs (l : List Char) : List (List Char) :=
  splitWsGo l false []

/-- The word/character counts the `pre('save')` hooks derive from a content
string: strip markup, trim, then split on whitespace (a falsy — empty —
stripped string yields word count 0). Returns `(wordCount, characterCount)`. -/
def computeCounts (content : String) : Nat × Nat :=
  let textContent := trimJs (stripTags content.data)
  (if textContent.isEmpty then 0 else (jsSplitWs textContent).length,
   textContent.length)

/-! ## Access evaluation (`documentSchema.methods.hasAccess`) -/

/-- `documentSchema.methods.hasAccess(userId, requiredPermission)`. Owner is
always granted; a collaborator is granted iff their rank is at least the
required rank; otherwise access requires a public share and `read`. -/
def hasAccess (d : Document) (userId : String) (required : String) : Bool :=
  if d.ownerId = userId then
    true
  else
    match d.collaborators.find? (fun c => c.user == userId) with
    | none =>
      (match d.shareSettings with
       | some s => s.isPublic
       | none => false) && required == "read"
    | some c => decide (permLevel required ≤ permLevel c.permission)

/-! ## Collaborator management (`addCollaborator` / `removeCollaborator`) -/

/-- Update the permission of the first entry for `userId` (the code uses
`findIndex` and assigns in place). -/
def updateFirstPerm : List Collaborator → String → String → List Collaborator
  | [], _, _ => []
  | c :: rest, u, p =>
    if c.user = u then { c with permission := p } :: rest
    else c :: updateFirstPerm rest u p

/-- `documentSchema.methods.addCollaborator(userId, permission)`: update the
existing entry or push a new one, then set `isShared = true`. -/
def addCollaborator (d : Document) (userId permission : String) : Document :=
  let collabs :=
    if d.collaborators.any (fun c => c.user == userId) then
      updateFirstPerm d.collaborators userId permission
    else
      d.collaborators ++ [{ user := userId, permission := permission }]
  { d with collaborators := collabs, isShared := true }

/-- `documentSchema.methods.removeCollaborator(userId)`: filter the entry out;
set `isShared = false` only when no collaborators are left. -/
def removeCollaborator (d : Document) (userId : String) : Document :=
  let collabs := d.collaborators.filter (fun c => !(c.user == userId))
  { d with
    collaborators := collabs,
    isShared := if collabs.isEmpty then false else d.isShared }

/-! ## Share-link registry (`POST`, `PUT`, `DELETE /api/documents/:id/share`) -/

/-- The validated body of the share routes (`isPublic`, `defaultPermission`,
`allowComments`, `allowDownload`, optional `expiresAt`). -/
structure ShareRequest where
  isPublic : Bool
  defaultPermission : String
  allowComments : Bool
  allowDownload : Bool
  expiresAt : Option Nat
deriving DecidableEq

/-- `permissionLinks[perm]` for the three validated capability levels. -/
def getLink (links : PermissionLinks) (perm : String) : Option PermLink :=
  if perm = "read" then links.read
  else if perm = "comment" then links.comment
  else if perm = "write" then links.write
  else none

/-- `permissionLinks[perm] = l` (the route validator restricts `perm` to the
three capability levels; any other string leaves the table unchanged). -/
def setLink (links : PermissionLinks) (perm : String) (l : PermLink) : PermissionLinks :=
  if perm = "read" then { links with read := some l }
  else if perm = "comment" then { links with comment := some l }
  else if perm = "write" then { links with write := some l }
  else links

/-- The share-management authorization check repeated verbatim in the three
share route handlers: owner, or a collaborator whose permission is exactly
`write`. -/
def canManageShare (d : Document) (userId : String) : Bool :=
  d.ownerId == userId ||
    d.collaborators.any (fun c => c.user == userId && c.permission == "write")

/-- The existing-link check of `POST /api/documents/:id/share`: the stored
entry must have truthy (non-empty) `url` and `token`. -/
def existingValidLink (d : Document) (perm : String) : Option PermLink :=
  match d.shareSettings with
  | none => none
  | some s =>
    match getLink s.permissionLinks perm with
    | none => none
    | some l => if l.url == "" || l.token == "" then none else some l

def frontendUrl : String := "http://localhost:5173"

inductive ShareResult
  | existing (link : PermLink) (d : Document)
  | created (link : PermLink) (d : Document)
  | forbidden
deriving DecidableEq

/-- `POST /api/documents/:id/share` after the 404 check: authorize, return the
existing live link for the requested capability if any, otherwise mint a link
from `freshToken`, initializing `shareSettings` (with `isPublic: true`) when
absent, and mark the document shared. -/
def generateShareLink (d : Document) (userId : String) (req : ShareRequest)
    (freshToken : String) : ShareResult :=
  if !canManageShare d userId then
    .forbidden
  else
    match existingValidLink d req.defaultPermission with
    | some l => .existing l d
    | none =>
      let shareUrl := frontendUrl ++ "/shared/" ++ freshToken
      let newLink : PermLink := { token := freshToken, url := shareUrl }
      let s0 : ShareSettings :=
        match d.shareSettings with
        | some s => s
        | none =>
          { isPublic := true
            permissionLinks := emptyLinks
            defaultPermission := req.defaultPermission
            allowComments := req.allowComments
            allowDownload := req.allowDownload
            expiresAt := none }
      let s1 := { s0 with
        permissionLinks := setLink s0.permissionLinks req.defaultPermission newLink
        allowComments := req.allowComments
        allowDownload := req.allowDownload }
      .created newLink
        { d with shareSettings := some s1, isShared := true, shareLink := some shareUrl }

inductive UpdateShareResult
  | ok (d : Document)
  | notShared
  | forbidden
deriving DecidableEq

/-- `PUT /api/documents/:id/share` after the 404 check: authorize, reject when
no share settings exist, otherwise update the settings in place, leaving the
permission-link table untouched (`expiresAt` is set only when supplied). -/
def updateShareSettings (d : Document) (userId : String) (req : ShareRequest) :
    UpdateShareResult :=
  if !canManageShare d userId then
    .forbidden
  else
    match d.shareSettings with
    | none => .notShared
    | some s =>
      .ok { d with shareSettings := some { s with
        isPublic := req.isPublic
        defaultPermission := req.defaultPermission
        allowComments := req.allowComments
        allowDownload := req.allowDownload
        expiresAt := match req.expiresAt with
          | some e => some e
          | none => s.expiresAt } }

/-- The state change of `DELETE /api/documents/:id/share`:
`shareSettings = undefined; isShared = false; shareLink = undefined`, saved as
a single document write. -/
def revokeShare (d : Document) : Document :=
  { d with shareSettings := none, isShared := false, shareLink := none }

inductive RevokeResult
  | ok (d : Document)
  | forbidden
deriving DecidableEq

/-- `DELETE /api/documents/:id/share` after the 404 check. -/
def revokeShareLink (d : Document) (userId : String) : RevokeResult :=
  if !canManageShare d userId then .forbidden else .ok (revokeShare d)

/-! ## Token resolution (`GET /api/documents/shared/:token`) -/

def linkTokenMatches (l : Option PermLink) (token : String) : Bool :=
  match l with
  | some l => l.token == token
  | none => false

/-- The `findOne` filter of the shared-token route: `shareSettings.isPublic`
must be true and the token must equal one of the three permission-link
tokens. -/
def matchesShared (d : Document) (token : String) : Bool :=
  match d.shareSettings with
  | none => false
  | some s =>
    s.isPublic &&
      (linkTokenMatches s.permissionLinks.read token ||
       linkTokenMatches s.permissionLinks.comment token ||
       linkTokenMatches s.permissionLinks.write token)

/-- Permission determination of the shared-token route: `write` if the token
matches the write link, else `comment` if it matches the comment link, else
the default `read`. -/
def tokenPermission (s : ShareSettings) (token : String) : String :=
  if linkTokenMatches s.permissionLinks.write token then "write"
  else if linkTokenMatches s.permissionLinks.comment token then "comment"
  else "read"

/-- `document.shareSettings.expiresAt && new Date() > new Date(expiresAt)`. -/
def expiryPassed (s : ShareSettings) (now : Nat) : Bool :=
  match s.expiresAt with
  | some e => decide (e < now)
  | none => false

inductive ResolveResult
  | found (docId : Nat) (permission : String)
  | notFound
  | expired
deriving DecidableEq

/-- `GET /api/documents/shared/:token`: find the first matching public
document (404 when none), answer 410 when its expiry has passed, otherwise
return it with the capability the token resolves to. -/
def getSharedByToken (docs : List Document) (token : String) (now : Nat) :
    ResolveResult :=
  match docs.find? (fun d => matchesShared d token) with
  | none => .notFound
  | some d =>
    match d.shareSettings with
    | none => .notFound
    | some s =>
      if expiryPassed s now then .expired
      else .found d.id (tokenPermission s token)

/-! ## Version chain (`Version.js` statics) -/

/-- The version numbers stored for one document, in collection order. -/
def versionNumbersFor (store : List Version) (docId : Nat) : List Nat :=
  (store.filter (fun v => v.documentId == docId)).map (fun v => v.versionNumber)

/-- `Version.getNextVersionNumber(documentId)`: `findOne` on the document's
versions sorted by `versionNumber` descending — i.e. the maximum stored
number — plus one, or `1` when the document has no version. -/
def getNextVersionNumber (store : List Version) (docId : Nat) : Nat :=
  match versionNumbersFor store docId with
  | [] => 1
  | n :: ns => ns.foldl Nat.max n + 1

/-- `Version.createVersion(documentId, content, title, authorId, authorName,
changes, isAutoSave)`: compute the next number, build the row (whose
`pre('save')` hook derives the counts from `content`), and insert it. -/
def createVersion (store : List Version) (docId : Nat)
    (content title authorId authorName changes : String) (isAutoSave : Bool) :
    Version × List Version :=
  let n := getNextVersionNumber store docId
  let counts := computeCounts content
  let v : Version :=
    { documentId := docId
      content := content
      title := title
      authorId := authorId
      authorName := authorName
      changes := changes
      versionNumber := n
      isAutoSave := isAutoSave
      wordCount := counts.1
      characterCount := counts.2 }
  (v, store ++ [v])

/-- The caller-supplied data of one `createVersion` call. -/
structure VersionInput where
  content : String
  title : String
  authorId : String
  authorName : String
  changes : String
  isAutoSave : Bool
deriving DecidableEq

/-- Iterated sequential `createVersion` calls on one document. -/
def appendAll (store : List Version) (docId : Nat) : List VersionInput → List Version
  | [] => store
  | i :: is =>
    appendAll (createVersion store docId i.content i.title i.authorId i.authorName
      i.changes i.isAutoSave).2 docId is

/-! ## Document creation and mutation (`POST` / `PUT /api/documents/:id`) -/

/-- JS `a || b` for an optional string: a missing or empty value falls back
to the default. -/
def jsOr (o : Option String) (dflt : String) : String :=
  match o with
  | some s => if s = "" then dflt else s
  | none => dflt

/-- `POST /api/documents`: build the document (with defaulted fields), save it
(the `pre('save')` hook computes the counts of the fresh content), and append
the initial version with description `"Document created"`. Returns the saved
document, the initial version, and the updated version store. -/
def createDocument (newId : Nat) (store : List Version)
    (title content folder : Option String) (userId userName : String) :
    Document × Version × List Version :=
  let t := jsOr title "Untitled Document"
  let c := jsOr content ""
  let counts := computeCounts c
  let d : Document :=
    { id := newId
      title := t
      content := c
      ownerId := userId
      collaborators := []
      isShared := false
      shareSettings := none
      shareLink := none
      tags := []
      folder := jsOr folder "root"
      status := "draft"
      wordCount := counts.1
      characterCount := counts.2
      lastEditedBy := userId }
  let vres := createVersion store newId c t userId userName "Document created" false
  (d, vres.1, vres.2)

/-- The validated body of `PUT /api/documents/:id`; absent fields are left
untouched. -/
structure UpdateRequest where
  title : Option String
  content : Option String
  status : Option String
  folder : Option String
  tags : Option (List String)
deriving DecidableEq

/-- The field assignments of the update handler
(`if (field !== undefined) document.field = field`), plus the `lastEditedBy`
stamp. -/
def applyUpdates (d : Document) (req : UpdateRequest) (userId : String) : Document :=
  { d with
    title := req.title.getD d.title
    content := req.content.getD d.content
    status := req.status.getD d.status
    folder := req.folder.getD d.folder
    tags := req.tags.getD d.tags
    lastEditedBy := userId }

/-- `content !== undefined && content !== oldContent`: the condition both for
mongoose marking the `content` path modified and for the route appending an
auto-save version. -/
def contentChanged (d : Document) (req : UpdateRequest) : Bool :=
  match req.content with
  | some c => !(c == d.content)
  | none => false

/-- `document.save()`: the `pre('save')` hook recomputes the counts exactly
when the content path was modified. -/
def saveDocument (d : Document) (contentModified : Bool) : Document :=
  if contentModified then
    let counts := computeCounts d.content
    { d with wordCount := counts.1, characterCount := counts.2 }
  else d

inductive UpdateResult
  | ok (d : Document) (store : List Version)
  | forbidden
deriving DecidableEq

/-- `PUT /api/documents/:id` after the 404 check: require `write` access,
apply the submitted fields, save (recomputing counts iff content changed), and
append a `"Content updated"` auto-save version iff the submitted content
differs from the previously stored content. -/
def updateDocument (d : Document) (store : List Version) (req : UpdateRequest)
    (userId userName : String) : UpdateResult :=
  if !hasAccess d userId "write" then
    .forbidden
  else
    let changed := contentChanged d req
    let d1 := saveDocument (applyUpdates d req userId) changed
    if changed then
      .ok d1 (createVersion store d.id d1.content d1.title userId userName
        "Content updated" true).2
    else
      .ok d1 store

/-! ## Concrete fixtures -/

def baseDoc : Document :=
  { id := 1
    title := "Untitled Document"
    content := ""
    ownerId := "owner"
    collaborators := []
    isShared := false
    shareSettings := none
    shareLink := none
    tags := []
    folder := "root"
    status := "draft"
    wordCount := 0
    characterCount := 0
    lastEditedBy := "owner" }

/-- A document whose only collaborator `user1` holds capability `granted`. -/
def collabDoc (granted : String) : Document :=
  { baseDoc with collaborators := [{ user := "user1", permission := granted }] }

/-- A document whose only collaborator `user1` holds capability `admin`. -/
def adminDoc : Document :=
  { baseDoc with collaborators := [{ user := "user1", permission := "admin" }] }

def sampleReq : ShareRequest :=
  { isPublic := true
    defaultPermission := "read"
    allowComments := true
    allowDownload := true
    expiresAt := none }

/-- Modelled from the spec: ranks for the capability order
`read < comment < write < admin` stated in the spec's permission hierarchy,
used only to state the hierarchy claim against the code. -/
def specRank (p : String) : Nat :=
  if p = "read" then 1 else if p = "comment" then 2
  else if p = "write" then 3 else if p = "admin" then 4 else 0

/-- The three externally requestable capability levels. -/
def perms3 : List String := ["read", "comment", "write"]

/-! ## C1: permission hierarchy in `hasAccess` -/

/-- C1, counterexample: with ranks taken from the claimed total order
`read < comment < write < admin`, `hasAccess` does NOT grant a non-owner
collaborator iff `rank granted ≥ rank required` over the nine combinations
of `{read, comment, write}`: a collaborator granted `read` IS granted when
`comment` is required (the code ranks unknown strings, `comment` included,
as 0), although `read < comment` in the claimed order. -/
theorem hasAccess_spec_order_counterexample :
    ¬ (∀ g ∈ perms3, ∀ r ∈ perms3,
        hasAccess (collabDoc g) "user1" r = decide (specRank r ≤ specRank g)) := by
  decide

/-- C1, amended: `hasAccess` grants a non-owner collaborator iff
`permLevel granted ≥ permLevel required`, where `permLevel` ranks
`read = 1 < write = 2 < admin = 3` and every other string — `comment`
included — as 0 (so the code's effective order is
`comment < read < write < admin`); the owner is always granted, whatever the
required capability. -/
theorem hasAccess_rank_characterization :
    (∀ g r : String, hasAccess (collabDoc g) "user1" r
        = decide (permLevel r ≤ permLevel g)) ∧
    (∀ (d : Document) (r : String), hasAccess d d.ownerId r = true) := by
  constructor
  · intro g r
    simp [hasAccess, collabDoc, baseDoc, List.find?]
  · intro d r
    simp [hasAccess]

/-! ## C10: share-management authorization -/

/-- `u` appears in the collaborator list with capability exactly `write`. -/
def existsWriteCollab (d : Document) (u : String) : Prop :=
  ∃ c ∈ d.collaborators, c.user = u ∧ c.permission = "write"

theorem canManageShare_eq_true_iff (d : Document) (u : String) :
    canManageShare d u = true ↔ d.ownerId = u ∨ existsWriteCollab d u := by
  simp [canManageShare, existsWriteCollab, List.any_eq_true]

theorem generateShareLink_forbidden_iff (d : Document) (u : String)
    (req : ShareRequest) (tok : String) :
    generateShareLink d u req tok = .forbidden ↔ canManageShare d u = false := by
  unfold generateShareLink
  cases hcm : canManageShare d u
  · simp
  · cases existingValidLink d req.defaultPermission <;> simp

theorem updateShareSettings_forbidden_iff (d : Document) (u : String)
    (req : ShareRequest) :
    updateShareSettings d u req = .forbidden ↔ canManageShare d u = false := by
  unfold updateShareSettings
  cases hcm : canManageShare d u
  · simp
  · cases d.shareSettings <;> simp

theorem revokeShareLink_forbidden_iff (d : Document) (u : String) :
    revokeShareLink d u = .forbidden ↔ canManageShare d u = false := by
  unfold revokeShareLink
  cases hcm : canManageShare d u <;> simp

/-- C10: in each of the three share-management handlers (issue link, update
settings, revoke), a non-owner is rejected with 403 iff they are not a
collaborator whose permission is exactly `write`; in particular an `admin`
collaborator is rejected by all three. -/
theorem shareManagement_requires_write (d : Document) (u : String)
    (req : ShareRequest) (tok : String) (howner : d.ownerId ≠ u) :
    (generateShareLink d u req tok = .forbidden ↔ ¬ existsWriteCollab d u) ∧
    (updateShareSettings d u req = .forbidden ↔ ¬ existsWriteCollab d u) ∧
    (revokeShareLink d u = .forbidden ↔ ¬ existsWriteCollab d u) := by
  have hc : canManageShare d u = false ↔ ¬ existsWriteCollab d u := by
    rw [Bool.eq_false_iff, Ne, canManageShare_eq_true_iff]
    simp [howner]
  rw [generateShareLink_forbidden_iff, updateShareSettings_forbidden_iff,
    revokeShareLink_forbidden_iff]
  exact ⟨hc, hc, hc⟩

/-- C10 witness: the `admin` collaborator of `adminDoc` is a non-owner and is
rejected by all three share-management handlers. -/
theorem shareManagement_requires_write_witness :
    adminDoc.ownerId ≠ "user1" ∧
    generateShareLink adminDoc "user1" sampleReq "tok1" = .forbidden ∧
    updateShareSettings adminDoc "user1" sampleReq = .forbidden ∧
    revokeShareLink adminDoc "user1" = .forbidden := by
  have h := shareManagement_requires_write adminDoc "user1" sampleReq "tok1"
    (by decide)
  have hnw : ¬ existsWriteCollab adminDoc "user1" := by
    unfold existsWriteCollab
    decide
  exact ⟨by decide, h.1.mpr hnw, h.2.1.mpr hnw, h.2.2.mpr hnw⟩

/-! ## C2: version numbering -/

/-- Spec-side "max existing version number for this document" (0 when the
document has no version). -/
def maxVersionNumber (store : List Version) (docId : Nat) : Nat :=
  (versionNumbersFor store docId).foldr Nat.max 0

theorem foldl_max_eq_max_foldr (ns : List Nat) :
    ∀ n, ns.foldl Nat.max n = Nat.max n (ns.foldr Nat.max 0) := by
  induction ns with
  | nil => intro n; simp
  | cons c cs ih =>
    intro n
    simp only [List.foldl_cons, List.foldr_cons, ih (Nat.max n c)]
    simp only [Nat.max_def]
    split_ifs <;> omega

theorem getNextVersionNumber_eq_max_add_one (store : List Version) (docId : Nat) :
    getNextVersionNumber store docId = maxVersionNumber store docId + 1 := by
  unfold getNextVersionNumber maxVersionNumber
  cases h : versionNumbersFor store docId with
  | nil => simp
  | cons n ns => simp [foldl_max_eq_max_foldr]

theorem foldr_max_range' :
    ∀ (k a : Nat), (List.range' a k).foldr Nat.max 0 = if k = 0 then 0 else a + k - 1 := by
  intro k
  induction k with
  | zero => intro a; simp
  | succ j ih =>
    intro a
    rw [List.range'_succ]
    simp only [List.foldr_cons, ih (a + 1)]
    by_cases hj : j = 0
    · subst hj; simp
    · rw [if_neg hj, if_neg (Nat.succ_ne_zero j)]
      simp only [Nat.max_def]
      split_ifs <;> omega

theorem getNextVersionNumber_of_range (store : List Version) (docId k : Nat)
    (h : versionNumbersFor store docId = List.range' 1 k) :
    getNextVersionNumber store docId = k + 1 := by
  rw [getNextVersionNumber_eq_max_add_one]
  unfold maxVersionNumber
  rw [h, foldr_max_range' k 1]
  by_cases hk : k = 0
  · simp [hk]
  · rw [if_neg hk]
    omega

theorem versionNumbersFor_append (store : List Version) (v : Version) (docId : Nat) :
    versionNumbersFor (store ++ [v]) docId
      = versionNumbersFor store docId
        ++ (if v.documentId == docId then [v.versionNumber] else []) := by
  unfold versionNumbersFor
  rw [List.filter_append, List.map_append]
  by_cases h : v.documentId == docId
  · simp [List.filter, h]
  · simp only [Bool.not_eq_true] at h
    simp [List.filter, h]

theorem appendAll_versionNumbers (docId : Nat) :
    ∀ (is : List VersionInput) (store : List Version) (k : Nat),
      versionNumbersFor store docId = List.range' 1 k →
      versionNumbersFor (appendAll store docId is) docId
        = List.range' 1 (k + is.length) := by
  intro is
  induction is with
  | nil => intro store k h; simpa using h
  | cons i is ih =>
    intro store k h
    rw [appendAll]
    have hnum : (createVersion store docId i.content i.title i.authorId
        i.authorName i.changes i.isAutoSave).1.versionNumber = k + 1 :=
      getNextVersionNumber_of_range store docId k h
    have hstep : versionNumbersFor (createVersion store docId i.content i.title
        i.authorId i.authorName i.changes i.isAutoSave).2 docId
        = List.range' 1 (k + 1) := by
      rw [createVersion] at hnum ⊢
      simp only at hnum ⊢
      rw [versionNumbersFor_append, h]
      simp only [beq_self_eq_true, if_pos, hnum]
      rw [List.range'_1_concat 1 k]
      simp [Nat.add_comm]
    rw [ih _ (k + 1) hstep]
    congr 1
    simp [List.length_cons]
    omega

/-- C2: `createVersion` assigns `(max existing version number for the
document) + 1` — in particular `1` when no version exists, the max being `0`
then — and, starting from a store holding no version for the document, any
sequence of `N` appends (arbitrary contents and authors) leaves that
document's version numbers exactly `1, 2, ..., N`: strictly increasing,
gapless, and duplicate-free. -/
theorem createVersion_sequence (store : List Version) (docId : Nat)
    (is : List VersionInput)
    (hfresh : versionNumbersFor store docId = []) :
    (∀ (store2 : List Version) (c t a an ch : String) (auto : Bool),
        (createVersion store2 docId c t a an ch auto).1.versionNumber
          = maxVersionNumber store2 docId + 1) ∧
    versionNumbersFor (appendAll store docId is) docId
      = List.range' 1 is.length ∧
    (versionNumbersFor (appendAll store docId is) docId).Nodup ∧
    (versionNumbersFor (appendAll store docId is) docId).Pairwise (· < ·) := by
  have hrange : versionNumbersFor (appendAll store docId is) docId
      = List.range' 1 is.length := by
    have h0 : versionNumbersFor store docId = List.range' 1 0 := by simpa using hfresh
    simpa using appendAll_versionNumbers docId is store 0 h0
  refine ⟨?_, hrange, ?_, ?_⟩
  · intro store2 c t a an ch auto
    rw [createVersion]
    simpa using getNextVersionNumber_eq_max_add_one store2 docId
  · rw [hrange]; exact List.nodup_range' 1 is.length
  · rw [hrange]; exact List.pairwise_lt_range' 1 is.length

/-- C2 witness: three concrete appends on a fresh document produce the
version numbers `[1, 2, 3]`. -/
theorem createVersion_sequence_witness :
    versionNumbersFor [] 0 = [] ∧
    versionNumbersFor
      (appendAll [] 0
        [{ content := "a", title := "t", authorId := "u", authorName := "U",
           changes := "one", isAutoSave := false },
         { content := "b", title := "t", authorId := "u", authorName := "U",
           changes := "two", isAutoSave := true },
         { content := "c", title := "t", authorId := "u", authorName := "U",
           changes := "three", isAutoSave := true }]) 0 = [1, 2, 3] := by
  have h := createVersion_sequence [] 0
    [{ content := "a", title := "t", authorId := "u", authorName := "U",
       changes := "one", isAutoSave := false },
     { content := "b", title := "t", authorId := "u", authorName := "U",
       changes := "two", isAutoSave := true },
     { content := "c", title := "t", authorId := "u", authorName := "U",
       changes := "three", isAutoSave := true }] (by decide)
  refine ⟨by decide, ?_⟩
  rw [h.2.1]
  decide

/-! ## C4: revocation -/

/-- C4: revocation clears the whole share state in a single document write
(one assignment of the record, so no partial state is ever stored): the
share-settings object is absent — and with it every permission-link entry —
the issuance route finds no live link for any capability, no token matches
the revoked document, and resolving any token against it returns the 404
not-found outcome; the owner's revoke request indeed produces this state. -/
theorem revokeShare_clears_everything (d : Document) (token : String)
    (now : Nat) (cap : String) :
    (revokeShare d).shareSettings = none ∧
    existingValidLink (revokeShare d) cap = none ∧
    matchesShared (revokeShare d) token = false ∧
    getSharedByToken [revokeShare d] token now = .notFound ∧
    revokeShareLink d d.ownerId = .ok (revokeShare d) := by
  refine ⟨rfl, rfl, rfl, ?_, ?_⟩
  · simp [getSharedByToken, List.find?, matchesShared, revokeShare]
  · simp [revokeShareLink, canManageShare]

/-! ## C3: share-token resolution -/

def optTokenNe (a b : Option PermLink) : Bool :=
  match a, b with
  | some x, some y => !(x.token == y.token)
  | _, _ => true

/-- The tokens stored in a permission-link table are pairwise distinct
(a consequence of token uniqueness assumed by the resolution route). -/
def linksDistinct (links : PermissionLinks) : Bool :=
  optTokenNe links.read links.comment && optTokenNe links.read links.write &&
    optTokenNe links.comment links.write

theorem tokenPermission_of_link (s : ShareSettings) (token : String)
    (cap : String) (l : PermLink)
    (hget : getLink s.permissionLinks cap = some l)
    (htok : l.token = token)
    (hdist : linksDistinct s.permissionLinks = true) :
    tokenPermission s token = cap := by
  have hdist' := hdist
  unfold linksDistinct at hdist'
  simp only [Bool.and_eq_true] at hdist'
  obtain ⟨⟨hrc, hrw⟩, hcw⟩ := hdist'
  unfold getLink at hget
  unfold tokenPermission
  split_ifs at hget with h1 h2 h3
  · -- cap = "read"
    subst h1
    have hwf : linkTokenMatches s.permissionLinks.write token = false := by
      cases hw : s.permissionLinks.write with
      | none => rfl
      | some lw =>
        rw [hget, hw] at hrw
        unfold optTokenNe at hrw
        simp only [Bool.not_eq_true', beq_eq_false_iff_ne] at hrw
        simp [linkTokenMatches, ← htok, Ne.symm hrw]
    have hcf : linkTokenMatches s.permissionLinks.comment token = false := by
      cases hc : s.permissionLinks.comment with
      | none => rfl
      | some lc =>
        rw [hget, hc] at hrc
        unfold optTokenNe at hrc
        simp only [Bool.not_eq_true', beq_eq_false_iff_ne] at hrc
        simp [linkTokenMatches, ← htok, Ne.symm hrc]
    rw [hwf, hcf]
    simp
  · -- cap = "comment"
    subst h2
    have hwf : linkTokenMatches s.permissionLinks.write token = false := by
      cases hw : s.permissionLinks.write with
      | none => rfl
      | some lw =>
        rw [hget, hw] at hcw
        unfold optTokenNe at hcw
        simp only [Bool.not_eq_true', beq_eq_false_iff_ne] at hcw
        simp [linkTokenMatches, ← htok, Ne.symm hcw]
    have hct : linkTokenMatches s.permissionLinks.comment token = true := by
      simp [linkTokenMatches, hget, htok]
    rw [hwf, hct]
    simp
  · -- cap = "write"
    subst h3
    have hwt : linkTokenMatches s.permissionLinks.write token = true := by
      simp [linkTokenMatches, hget, htok]
    rw [hwt]
    simp

/-- C3: resolving a share token (i) returns the found document together with
exactly the capability whose permission-link entry carries the token, when
the document is unexpired and its stored link tokens are pairwise distinct;
(ii) returns the 404 not-found outcome when no live entry matches the token;
(iii) returns the distinct 410 expired outcome when the matching document's
expiry lies in the past, even though the matching permission-link entry is
still stored. -/
theorem getSharedByToken_spec (docs : List Document) (token : String) (now : Nat) :
    (∀ d s cap l,
        docs.find? (fun x => matchesShared x token) = some d →
        d.shareSettings = some s →
        getLink s.permissionLinks cap = some l →
        l.token = token →
        linksDistinct s.permissionLinks = true →
        expiryPassed s now = false →
        getSharedByToken docs token now = .found d.id cap) ∧
    ((∀ d ∈ docs, matchesShared d token = false) →
        getSharedByToken docs token now = .notFound) ∧
    (∀ d s cap l,
        docs.find? (fun x => matchesShared x token) = some d →
        d.shareSettings = some s →
        expiryPassed s now = true →
        getLink s.permissionLinks cap = some l →
        l.token = token →
        getSharedByToken docs token now = .expired ∧
        getSharedByToken docs token now ≠ .notFound ∧
        getLink s.permissionLinks cap = some l) := by
  refine ⟨?_, ?_, ?_⟩
  · intro d s cap l hfind hs hget htok hdist hexp
    have hperm := tokenPermission_of_link s token cap l hget htok hdist
    unfold getSharedByToken
    simp [hfind, hs, hexp, hperm]
  · intro hall
    unfold getSharedByToken
    have : docs.find? (fun x => matchesShared x token) = none := by
      rw [List.find?_eq_none]
      intro x hx
      simp [hall x hx]
    rw [this]
  · intro d s cap l hfind hs hexp hget htok
    unfold getSharedByToken
    exact ⟨by simp [hfind, hs, hexp], by simp [hfind, hs, hexp], hget⟩

/-- A public shared document with distinct `read` and `write` link tokens and
an expiry timestamp of 100. -/
def sharedSettings : ShareSettings :=
  { isPublic := true
    allowComments := true
    allowDownload := true
    defaultPermission := "read"
    permissionLinks :=
      { read := some { token := "tokread", url := "urlread" }
        comment := none
        write := some { token := "tokwrite", url := "urlwrite" } }
    expiresAt := some 100 }

def sharedDoc : Document :=
  { baseDoc with shareSettings := some sharedSettings, isShared := true }

/-- C3 witness: on `sharedDoc`, the read token resolves to `read` before the
expiry, an unknown token resolves to not-found, and the read token resolves
to expired after the expiry. -/
theorem getSharedByToken_spec_witness :
    getSharedByToken [sharedDoc] "tokread" 50 = .found 1 "read" ∧
    getSharedByToken [sharedDoc] "zzz" 50 = .notFound ∧
    getSharedByToken [sharedDoc] "tokread" 200 = .expired := by
  refine ⟨?_, ?_, ?_⟩
  · exact (getSharedByToken_spec [sharedDoc] "tokread" 50).1 sharedDoc
      sharedSettings "read" { token := "tokread", url := "urlread" }
      (by decide) (by decide) (by decide) (by decide) (by decide) (by decide)
  · exact (getSharedByToken_spec [sharedDoc] "zzz" 50).2.1 (by decide)
  · exact ((getSharedByToken_spec [sharedDoc] "tokread" 200).2.2 sharedDoc
      sharedSettings "read" { token := "tokread", url := "urlread" }
      (by decide) (by decide) (by decide) (by decide) (by decide)).1

/-! ## C5, C6: share-link issuance -/

theorem existingValidLink_none_of_unshared (d : Document) (p : String)
    (hss : d.shareSettings = none) : existingValidLink d p = none := by
  unfold existingValidLink
  rw [hss]

theorem canManageShare_setShare (d : Document) (ss : Option ShareSettings)
    (b : Bool) (sl : Option String) (u : String) :
    canManageShare
        { d with shareSettings := ss, isShared := b, shareLink := sl } u
      = canManageShare d u := rfl

theorem getLink_setLink_same (links : PermissionLinks) (p : String) (l : PermLink)
    (hp : p = "read" ∨ p = "comment" ∨ p = "write") :
    getLink (setLink links p l) p = some l := by
  rcases hp with h | h | h <;> subst h <;> simp [getLink, setLink]

theorem mintedUrl_ne_empty (tok : String) :
    frontendUrl ++ "/shared/" ++ tok ≠ "" := by
  intro h
  have hlen : (frontendUrl ++ "/shared/" ++ tok).length = 0 := by rw [h]; rfl
  rw [String.length_append, String.length_append] at hlen
  have hf : frontendUrl.length = 21 := rfl
  omega

/-- What `generateShareLink` mints: the link carries exactly the fresh token
and the derived url, and the resulting document stores it in the
permission-link table under the requested capability. -/
theorem generateShareLink_created_props (d : Document) (u : String)
    (req : ShareRequest) (tok : String) (l : PermLink) (e : Document)
    (h : generateShareLink d u req tok = .created l e) :
    l = { token := tok, url := frontendUrl ++ "/shared/" ++ tok } ∧
    ∃ s1 : ShareSettings,
      e = { d with
              shareSettings := some s1
              isShared := true
              shareLink := some (frontendUrl ++ "/shared/" ++ tok) } ∧
      s1.permissionLinks
        = setLink
            (match d.shareSettings with
             | some s => s.permissionLinks
             | none => emptyLinks)
            req.defaultPermission l := by
  unfold generateShareLink at h
  by_cases hauth : canManageShare d u = true
  · rw [hauth] at h
    simp only [Bool.not_true, Bool.false_eq_true, if_false] at h
    cases hev : existingValidLink d req.defaultPermission with
    | some lx => rw [hev] at h; cases h
    | none =>
      rw [hev] at h
      cases hds : d.shareSettings with
      | none =>
        rw [hds] at h
        simp only [ShareResult.created.injEq] at h
        obtain ⟨hl, he⟩ := h
        subst hl
        exact ⟨rfl, _, he.symm, rfl⟩
      | some s =>
        rw [hds] at h
        simp only [ShareResult.created.injEq] at h
        obtain ⟨hl, he⟩ := h
        subst hl
        exact ⟨rfl, _, he.symm, rfl⟩
  · have hf : canManageShare d u = false := by
      cases hcm : canManageShare d u
      · rfl
      · exact absurd hcm hauth
    rw [hf] at h
    simp only [Bool.not_false, if_true] at h
    cases h

theorem existingValidLink_of_some (d : Document) (s : ShareSettings) (p : String)
    (hds : d.shareSettings = some s) :
    existingValidLink d p
      = match getLink s.permissionLinks p with
        | none => none
        | some l => if l.url == "" || l.token == "" then none else some l := by
  unfold existingValidLink
  rw [hds]

theorem generateShareLink_existing (x : Document) (u : String)
    (req : ShareRequest) (tok : String) (l : PermLink)
    (hx : canManageShare x u = true)
    (hl : existingValidLink x req.defaultPermission = some l) :
    generateShareLink x u req tok = .existing l x := by
  unfold generateShareLink
  rw [hx, hl]
  simp

theorem generateShareLink_created_total (x : Document) (u : String)
    (req : ShareRequest) (tok : String)
    (hx : canManageShare x u = true)
    (hev : existingValidLink x req.defaultPermission = none) :
    ∃ l e, generateShareLink x u req tok = .created l e := by
  unfold generateShareLink
  rw [hx, hev]
  simp only [Bool.not_true, Bool.false_eq_true, if_false]
  exact ⟨_, _, rfl⟩

/-- C5: share-link issuance is idempotent per (document, capability) pair and
accumulates links per capability: (i) when a live (non-empty url and token)
entry already exists for the requested capability, issuance returns exactly
that entry with the document unchanged; (ii) hence issuing twice with the
same capability returns the identical link both times, whatever fresh token
the second call would have used; (iii)–(v) on an unshared document, issuing
`read` then `write` succeeds and produces two entries whose tokens are the
two fresh tokens (distinct when the fresh tokens are distinct), and both
entries are retrievable from the resulting permission-link table. -/
theorem shareIssuance_idempotent (d : Document) (u : String)
    (req req1 req2 : ShareRequest) (tok tok1 tok2 : String)
    (hp : req.defaultPermission = "read" ∨ req.defaultPermission = "comment" ∨
      req.defaultPermission = "write")
    (hauth : canManageShare d u = true)
    (htok1 : tok1 ≠ "") (hss : d.shareSettings = none)
    (hp1 : req1.defaultPermission = "read")
    (hp2 : req2.defaultPermission = "write")
    (hne : tok1 ≠ tok2) :
    (∀ (x : Document) (l : PermLink), canManageShare x u = true →
        existingValidLink x req.defaultPermission = some l →
        generateShareLink x u req tok = .existing l x) ∧
    (∀ (x : Document) (l1 : PermLink) (e1 : Document),
        canManageShare x u = true →
        generateShareLink x u req tok1 = .created l1 e1 →
        generateShareLink e1 u req tok2 = .existing l1 e1) ∧
    (∃ l1 e1, generateShareLink d u req1 tok1 = .created l1 e1) ∧
    (∀ l1 e1, generateShareLink d u req1 tok1 = .created l1 e1 →
        ∃ l2 e2, generateShareLink e1 u req2 tok2 = .created l2 e2) ∧
    (∀ l1 e1 l2 e2,
        generateShareLink d u req1 tok1 = .created l1 e1 →
        generateShareLink e1 u req2 tok2 = .created l2 e2 →
        l1.token = tok1 ∧ l2.token = tok2 ∧ l1.token ≠ l2.token ∧
        ∃ s2, e2.shareSettings = some s2 ∧
          getLink s2.permissionLinks "read" = some l1 ∧
          getLink s2.permissionLinks "write" = some l2) := by
  refine ⟨?_, ?_, ?_, ?_, ?_⟩
  · intro x l hx hl
    exact generateShareLink_existing x u req tok l hx hl
  · intro x l1 e1 hx h1
    obtain ⟨hl1, s1, he1, hs1⟩ := generateShareLink_created_props x u req tok1 l1 e1 h1
    subst he1
    have hval : existingValidLink
        { x with
          shareSettings := some s1
          isShared := true
          shareLink := some (frontendUrl ++ "/shared/" ++ tok1) }
        req.defaultPermission = some l1 := by
      rw [existingValidLink_of_some _ s1 _ rfl]
      rw [hs1, getLink_setLink_same _ _ _ hp]
      have hfu : (l1.url == "") = false := by
        rw [hl1]
        exact beq_eq_false_iff_ne.mpr (mintedUrl_ne_empty tok1)
      have hft : (l1.token == "") = false := by
        rw [hl1]
        exact beq_eq_false_iff_ne.mpr htok1
      simp [hfu, hft]
    exact generateShareLink_existing _ u req tok2 l1
      (by rw [canManageShare_setShare]; exact hx) hval
  · exact generateShareLink_created_total d u req1 tok1 hauth
      (existingValidLink_none_of_unshared d _ hss)
  · intro l1 e1 h1
    obtain ⟨hl1, s1, he1, hs1⟩ :=
      generateShareLink_created_props d u req1 tok1 l1 e1 h1
    rw [hss, hp1] at hs1
    subst he1
    refine generateShareLink_created_total _ u req2 tok2
      (by rw [canManageShare_setShare]; exact hauth) ?_
    rw [existingValidLink_of_some _ s1 _ rfl, hp2, hs1]
    simp [getLink, setLink, emptyLinks]
  · intro l1 e1 l2 e2 h1 h2
    obtain ⟨hl1, s1, he1, hs1⟩ :=
      generateShareLink_created_props d u req1 tok1 l1 e1 h1
    rw [hss, hp1] at hs1
    subst he1
    obtain ⟨hl2, s2, he2, hs2⟩ :=
      generateShareLink_created_props _ u req2 tok2 l2 e2 h2
    rw [hp2] at hs2
    simp only at hs2
    subst he2
    have ht1 : l1.token = tok1 := by rw [hl1]
    have ht2 : l2.token = tok2 := by rw [hl2]
    refine ⟨ht1, ht2, by rw [ht1, ht2]; exact hne, s2, rfl, ?_, ?_⟩
    · rw [hs2, hs1]
      simp [getLink, setLink, emptyLinks]
    · rw [hs2]
      simp [getLink, setLink]

def sampleReqW : ShareRequest :=
  { sampleReq with defaultPermission := "write" }

/-- C5 witness: on the fresh `baseDoc`, issuing `read` with token `aaa`
creates a link; re-issuing `read` returns the identical link unchanged even
though the second call drew token `bbb`; issuing `write` with token `bbb`
creates a second, distinct link. -/
theorem shareIssuance_idempotent_witness :
    ∃ l1 e1 l2 e2,
      generateShareLink baseDoc "owner" sampleReq "aaa" = .created l1 e1 ∧
      generateShareLink e1 "owner" sampleReq "bbb" = .existing l1 e1 ∧
      generateShareLink e1 "owner" sampleReqW "bbb" = .created l2 e2 ∧
      l1.token = "aaa" ∧ l2.token = "bbb" ∧ l1.token ≠ l2.token := by
  have h := shareIssuance_idempotent baseDoc "owner" sampleReq sampleReq
    sampleReqW "x" "aaa" "bbb" (Or.inl rfl) (by decide) (by decide) rfl rfl rfl
    (by decide)
  obtain ⟨l1, e1, h1⟩ := h.2.2.1
  obtain ⟨l2, e2, h2⟩ := h.2.2.2.1 l1 e1 h1
  have hex := h.2.1 baseDoc l1 e1 (by decide) h1
  have hfacts := h.2.2.2.2 l1 e1 l2 e2 h1 h2
  exact ⟨l1, e1, l2, e2, h1, hex, h2, hfacts.1, hfacts.2.1, hfacts.2.2.1⟩

/-- A second document, identical to `baseDoc` except for its id. -/
def baseDoc2 : Document := { baseDoc with id := 2 }

def resultToken : ShareResult → Option String
  | .existing l _ => some l.token
  | .created l _ => some l.token
  | .forbidden => none

/-- C6 counterexample: the issuance route performs no collision check — when
the truncated-uuid generator emits the same 16-character string for two
different documents, both issuances succeed (neither is an error outcome)
and the two documents end up holding equal share tokens, so tokens are not
guaranteed globally unique and a collision is silently accepted rather than
treated as a hard error. -/
theorem shareToken_collision_counterexample :
    resultToken (generateShareLink baseDoc "owner" sampleReq "deadbeefdeadbeef")
      = some "deadbeefdeadbeef" ∧
    resultToken (generateShareLink baseDoc2 "owner" sampleReq "deadbeefdeadbeef")
      = some "deadbeefdeadbeef" ∧
    generateShareLink baseDoc "owner" sampleReq "deadbeefdeadbeef" ≠ .forbidden ∧
    generateShareLink baseDoc2 "owner" sampleReq "deadbeefdeadbeef" ≠ .forbidden := by
  decide

/-- C6 (amended): a minted share link carries exactly the freshly generated
uuid-derived string as its token, so two mints receive distinct tokens iff
the generator outputs are distinct; no uniqueness check or collision error
exists in the issuance path. -/
theorem shareToken_matches_generator (d1 d2 : Document) (u1 u2 : String)
    (r1 r2 : ShareRequest) (t1 t2 : String) (l1 l2 : PermLink)
    (e1 e2 : Document)
    (h1 : generateShareLink d1 u1 r1 t1 = .created l1 e1)
    (h2 : generateShareLink d2 u2 r2 t2 = .created l2 e2) :
    l1.token = t1 ∧ l2.token = t2 ∧ (t1 ≠ t2 → l1.token ≠ l2.token) := by
  obtain ⟨hl1, -⟩ := generateShareLink_created_props d1 u1 r1 t1 l1 e1 h1
  obtain ⟨hl2, -⟩ := generateShareLink_created_props d2 u2 r2 t2 l2 e2 h2
  have ht1 : l1.token = t1 := by rw [hl1]
  have ht2 : l2.token = t2 := by rw [hl2]
  refine ⟨ht1, ht2, fun hne heq => hne ?_⟩
  rw [ht1, ht2] at heq
  exact heq

/-- C6 witness: distinct generator outputs for two documents yield distinct
stored tokens. -/
theorem shareToken_matches_generator_witness :
    ∃ l1 e1 l2 e2,
      generateShareLink baseDoc "owner" sampleReq "aa11" = .created l1 e1 ∧
      generateShareLink baseDoc2 "owner" sampleReq "bb22" = .created l2 e2 ∧
      l1.token ≠ l2.token := by
  obtain ⟨l1, e1, h1⟩ :=
    generateShareLink_created_total baseDoc "owner" sampleReq "aa11"
      (by decide) (by decide)
  obtain ⟨l2, e2, h2⟩ :=
    generateShareLink_created_total baseDoc2 "owner" sampleReq "bb22"
      (by decide) (by decide)
  have h := shareToken_matches_generator baseDoc baseDoc2 "owner" "owner"
    sampleReq sampleReq "aa11" "bb22" l1 l2 e1 e2 h1 h2
  exact ⟨l1, e1, l2, e2, h1, h2, h.2.2 (by decide)⟩

/-! ## C7: the isShared flag -/

/-- The invariant claimed for the `isShared` convenience flag. -/
def isSharedConsistent (d : Document) : Prop :=
  d.isShared = true ↔ (d.collaborators ≠ [] ∨ d.shareSettings ≠ none)

/-- A document that is shared anonymously and has one `write` collaborator. -/
def sharedCollabDoc : Document :=
  { baseDoc with
      collaborators := [{ user := "user1", permission := "write" }]
      shareSettings := some sharedSettings
      isShared := true }

/-- C7 counterexample: removing the last collaborator sets `isShared = false`
even though share settings still exist, and revoking the share sets
`isShared = false` even though a collaborator remains — after either
operation the flag disagrees with "collaborators non-empty or share settings
exist". -/
theorem isShared_invariant_counterexample :
    ¬ isSharedConsistent (removeCollaborator sharedCollabDoc "user1") ∧
    ¬ isSharedConsistent (revokeShare sharedCollabDoc) := by
  unfold isSharedConsistent
  constructor
  · decide
  · decide

/-- C7 (amended): `addCollaborator` sets the flag and leaves a non-empty
collaborator list (so the invariant holds after it); a successful issuance
sets the flag with share settings present (so the invariant holds after it);
but `removeCollaborator` sets the flag to false exactly when the collaborator
list became empty, ignoring share settings, and revocation sets it to false
unconditionally, the invariant surviving revocation only when no collaborator
remains. -/
theorem isShared_flag_behavior (d : Document) (u p : String)
    (req : ShareRequest) (tok : String) :
    ((addCollaborator d u p).isShared = true ∧
      (addCollaborator d u p).collaborators ≠ [] ∧
      isSharedConsistent (addCollaborator d u p)) ∧
    (∀ l e, generateShareLink d u req tok = .created l e →
        e.isShared = true ∧ e.shareSettings ≠ none ∧ isSharedConsistent e) ∧
    ((removeCollaborator d u).isShared
        = if (d.collaborators.filter (fun c => !(c.user == u))).isEmpty
          then false else d.isShared) ∧
    ((revokeShare d).isShared = false ∧ (revokeShare d).shareSettings = none ∧
      (isSharedConsistent (revokeShare d) ↔ (revokeShare d).collaborators = [])) := by
  refine ⟨⟨rfl, ?_, ?_⟩, ?_, rfl, rfl, rfl, ?_⟩
  · unfold addCollaborator
    by_cases hany : d.collaborators.any (fun c => c.user == u)
    · simp only [hany, if_true]
      cases hcol : d.collaborators with
      | nil => rw [hcol] at hany; simp at hany
      | cons c rest =>
        unfold updateFirstPerm
        split <;> simp
    · simp [hany]
  · unfold isSharedConsistent
    refine iff_of_true rfl (Or.inl ?_)
    unfold addCollaborator
    by_cases hany : d.collaborators.any (fun c => c.user == u)
    · simp only [hany, if_true]
      cases hcol : d.collaborators with
      | nil => rw [hcol] at hany; simp at hany
      | cons c rest =>
        unfold updateFirstPerm
        split <;> simp
    · simp [hany]
  · intro l e he
    obtain ⟨-, s1, he1, -⟩ := generateShareLink_created_props d u req tok l e he
    subst he1
    exact ⟨rfl, by simp, iff_of_true rfl (Or.inr (by simp))⟩
  · unfold isSharedConsistent
    simp [revokeShare]

/-- C7 witness: adding a collaborator sets the flag; removing the only
collaborator of the shared `sharedCollabDoc` clears it (share settings
notwithstanding); a successful issuance sets it with settings present. -/
theorem isShared_flag_behavior_witness :
    (addCollaborator baseDoc "user1" "write").isShared = true ∧
    (removeCollaborator sharedCollabDoc "user1").isShared = false ∧
    ∃ l e, generateShareLink baseDoc "owner" sampleReq "tok9" = .created l e ∧
      e.isShared = true ∧ isSharedConsistent e := by
  have h1 := isShared_flag_behavior baseDoc "user1" "write" sampleReq "tok9"
  have h2 := isShared_flag_behavior sharedCollabDoc "user1" "write" sampleReq
    "tok9"
  have h3 := isShared_flag_behavior baseDoc "owner" "write" sampleReq "tok9"
  obtain ⟨l, e, hle⟩ := generateShareLink_created_total baseDoc "owner"
    sampleReq "tok9" (by decide) (by decide)
  refine ⟨h1.1.1, ?_, l, e, hle, (h3.2.1 l e hle).1, (h3.2.1 l e hle).2.2⟩
  rw [h2.2.2.1]
  decide

/-! ## C8: version on update, initial version on creation -/

def updateVersions : UpdateResult → List Version
  | .ok _ vs => vs
  | .forbidden => []

def c8doc : Document := { baseDoc with content := "old" }

def c8req : UpdateRequest :=
  { title := none, content := some "new", status := none, folder := none,
    tags := none }

/-- C8 counterexample: an accepted content-changing update appends exactly
one version, but its description is the capitalized literal
`"Content updated"`, not `"content updated"` as claimed; likewise document
creation writes `"Document created"`, not `"document created"`. -/
theorem version_description_counterexample :
    (updateVersions (updateDocument c8doc [] c8req "owner" "Owner")).map
        (fun v => v.changes) = ["Content updated"] ∧
    (createDocument 5 [] none none none "owner" "Owner").2.1.changes
      = "Document created" ∧
    ("Content updated" : String) ≠ "content updated" ∧
    ("Document created" : String) ≠ "document created" := by
  decide

/-- C8 (amended): an accepted update appends a version iff the submitted
content differs from the previously stored content: then exactly one version
is appended, with `isAutoSave = true`, description `"Content updated"`
(capitalized) and the next sequential number; an update touching only
metadata leaves the version store unchanged; and document creation always
appends an initial version numbered 1 with description `"Document created"`
(capitalized) and `isAutoSave = false`, even when the initial content is
empty or absent. -/
theorem updateDocument_version_behavior (d : Document) (store : List Version)
    (req : UpdateRequest) (u un : String) :
    (∀ d1 vs, updateDocument d store req u un = .ok d1 vs →
        (contentChanged d req = true →
          ∃ v, vs = store ++ [v] ∧ v.isAutoSave = true ∧
            v.changes = "Content updated" ∧
            v.versionNumber = getNextVersionNumber store d.id ∧
            v.content = d1.content) ∧
        (contentChanged d req = false → vs = store)) ∧
    (∀ (newId : Nat) (t c f : Option String),
        versionNumbersFor store newId = [] →
        (createDocument newId store t c f u un).2.1.versionNumber = 1 ∧
        (createDocument newId store t c f u un).2.1.changes
          = "Document created" ∧
        (createDocument newId store t c f u un).2.1.isAutoSave = false) := by
  constructor
  · intro d1 vs heq
    unfold updateDocument at heq
    by_cases hacc : hasAccess d u "write" = true
    · rw [hacc] at heq
      simp only [Bool.not_true, Bool.false_eq_true, if_false] at heq
      cases hch : contentChanged d req with
      | true =>
        rw [hch] at heq
        simp only [if_true] at heq
        injection heq with hd hv
        subst hd
        exact ⟨fun _ => ⟨_, hv.symm, rfl, rfl, rfl, rfl⟩, fun hf => by simp at hf⟩
      | false =>
        rw [hch] at heq
        simp only [Bool.false_eq_true, if_false] at heq
        injection heq with hd hv
        exact ⟨fun ht => by simp at ht, fun _ => hv.symm⟩
    · have hf : hasAccess d u "write" = false := by
        cases hcm : hasAccess d u "write"
        · rfl
        · exact absurd hcm hacc
      rw [hf] at heq
      simp only [Bool.not_false, if_true] at heq
      cases heq
  · intro newId t c f hfresh
    have hn := getNextVersionNumber_of_range store newId 0 (by simpa using hfresh)
    exact ⟨hn, rfl, rfl⟩

/-- C8 witness: the concrete content change `old → new` appends one auto-save
version described `"Content updated"`, and creating document 5 on an empty
store yields initial version number 1. -/
theorem updateDocument_version_behavior_witness :
    ∃ d1 vs v, updateDocument c8doc [] c8req "owner" "Owner" = .ok d1 vs ∧
      vs = [v] ∧ v.isAutoSave = true ∧ v.changes = "Content updated" ∧
      (createDocument 5 [] none none none "owner" "Owner").2.1.versionNumber
        = 1 := by
  obtain ⟨d1, vs, hok⟩ : ∃ d1 vs,
      updateDocument c8doc [] c8req "owner" "Owner" = .ok d1 vs := ⟨_, _, rfl⟩
  have h := updateDocument_version_behavior c8doc [] c8req "owner" "Owner"
  obtain ⟨v, hv, hauto, hdesc, -, -⟩ := (h.1 d1 vs hok).1 (by decide)
  have hc := (h.2 5 none none none (by decide)).1
  exact ⟨d1, vs, v, hok, by simpa using hv, hauto, hdesc, hc⟩

/-! ## C9: derived word/character counts -/

def c9req : UpdateRequest :=
  { title := none, content := some "<p>Hello world</p>", status := none,
    folder := none, tags := none }

/-- C9: whenever an accepted update changes the content, the saved document
carries the word and character counts computed from the new content by
stripping markup, trimming and splitting on whitespace; content that strips
to empty yields zero for both; and `<p>Hello world</p>` yields word count 2
and character count 11 (the length of `Hello world`). -/
theorem counts_recomputed (d : Document) (store : List Version)
    (req : UpdateRequest) (u un : String) (c : String) :
    (∀ d1 vs, updateDocument d store req u un = .ok d1 vs →
        contentChanged d req = true →
        d1.wordCount = (computeCounts d1.content).1 ∧
        d1.characterCount = (computeCounts d1.content).2 ∧
        (req.content = some c → d1.content = c)) ∧
    computeCounts "" = (0, 0) ∧
    computeCounts "<p>Hello world</p>" = (2, 11) := by
  refine ⟨?_, by decide, by decide⟩
  intro d1 vs heq hch
  unfold updateDocument at heq
  by_cases hacc : hasAccess d u "write" = true
  · rw [hacc] at heq
    simp only [Bool.not_true, Bool.false_eq_true, if_false] at heq
    rw [hch] at heq
    simp only [if_true] at heq
    injection heq with hd hv
    subst hd
    refine ⟨rfl, rfl, fun hrc => ?_⟩
    simp [saveDocument, applyUpdates, hrc]
  · have hf : hasAccess d u "write" = false := by
      cases hcm : hasAccess d u "write"
      · rfl
      · exact absurd hcm hacc
    rw [hf] at heq
    simp only [Bool.not_false, if_true] at heq
    cases heq

/-- C9 witness: the owner editing `baseDoc` from empty content to
`<p>Hello world</p>` yields word count 2 and character count 11. -/
theorem counts_recomputed_witness :
    ∃ d1 vs, updateDocument baseDoc [] c9req "owner" "Owner" = .ok d1 vs ∧
      d1.wordCount = 2 ∧ d1.characterCount = 11 := by
  obtain ⟨d1, vs, hok⟩ : ∃ d1 vs,
      updateDocument baseDoc [] c9req "owner" "Owner" = .ok d1 vs := ⟨_, _, rfl⟩
  have h := counts_recomputed baseDoc [] c9req "owner" "Owner"
    "<p>Hello world</p>"
  obtain ⟨hw, hcc, hcon⟩ := h.1 d1 vs hok (by decide)
  have hcnt := hcon rfl
  rw [hcnt] at hw hcc
  rw [h.2.2] at hw hcc
  exact ⟨d1, vs, hok, hw, hcc⟩

end SyncDoc

